import Mathlib

/-!
Verification of the imgy image-conversion utility (src/main.rs) against its
specification. The embedding models the extension resolver
(`Extension::from_str`), the format-tag display (`impl Display for Extension`),
the unified error type, and the conversion driver `run`/`main`, with the
external image codec library abstracted as a pair of capabilities
(decode-from-path, encode-to-path).
-/

namespace Imgy

/-- Rust `s.split('.')`: splits a character list on `'.'`, keeping empty
segments; on the empty input it yields one empty segment, exactly as Rust's
`str::split` yields `[""]` for `""`. The accumulator holds the current
segment reversed. -/
def splitDotAux : List Char → List Char → List (List Char)
  | [], acc => [acc.reverse]
  | c :: cs, acc =>
    if c = '.' then acc.reverse :: splitDotAux cs [] else splitDotAux cs (c :: acc)

def splitDot (s : List Char) : List (List Char) := splitDotAux s []

/-- The underlying `image::ImageError` of the external codec library, opaque
to this program; modelled by its rendered message. -/
abbrev ImageError : Type := String

/-- The unified error enum of main.rs: `Image(image::ImageError)`,
`Extension(String)`, `Io(io::Error)`. -/
inductive Error where
  | Image (e : ImageError)
  | Extension (msg : String)
  | Io (e : String)
deriving DecidableEq

/-- The message built at main.rs:72 for a path without extension. -/
def noExtensionMsg (s : String) : String :=
  "The file " ++ s ++ " has no extension, please specify one"

/-- The message built at main.rs:78 for an unsupported extension token. -/
def unsupportedMsg (s : String) : String :=
  "The extension " ++ s ++ " is not supported"

/-- The supported format tags (`enum Extension` in main.rs). -/
inductive Extension where
  | Png
  | Jpeg
  | Webp
deriving DecidableEq

/-- `impl Display for Extension` (main.rs:54-62). -/
def Extension.display : Extension → String
  | .Png => "png"
  | .Jpeg => "jpeg"
  | .Webp => "webp"

/-- The thiserror-derived `Display` of `Error` (main.rs:20-28). -/
def Error.display : Error → String
  | .Image e => "Image conversion error: " ++ e
  | .Extension msg => "File format error: " ++ msg
  | .Io e => "IO error: " ++ e

/-- The match arm of `Extension::from_str` over the candidate extension
token (main.rs:73-79). -/
def Extension.ofToken (e : String) : Except Error Extension :=
  if e = "png" then .ok .Png
  else if e = "jpg" then .ok .Jpeg
  else if e = "jpeg" then .ok .Jpeg
  else if e = "webp" then .ok .Webp
  else .error (.Extension (unsupportedMsg e))

/-- `Extension::from_str` (main.rs:64-81): split the path on `'.'`, take the
last part (`parts.last()`, failing with the no-extension message when there
is none), then match it against the supported tokens. -/
def Extension.fromStr (s : String) : Except Error Extension :=
  match (splitDot s.data).getLast? with
  | none => .error (.Extension (noExtensionMsg s))
  | some ext => Extension.ofToken (String.mk ext)

instance {ε α : Type} [DecidableEq ε] [DecidableEq α] : DecidableEq (Except ε α) := fun x y =>
  match x, y with
  | .ok a, .ok b =>
      if h : a = b then .isTrue (by rw [h])
      else .isFalse (by intro hc; cases hc; exact h rfl)
  | .ok _, .error _ => .isFalse (by intro hc; cases hc)
  | .error _, .ok _ => .isFalse (by intro hc; cases hc)
  | .error e, .error f =>
      if h : e = f then .isTrue (by rw [h])
      else .isFalse (by intro hc; cases hc; exact h rfl)

/-- The external codec library's two capabilities, as the spec's collaborator
contract: `image::open` (decode-from-path) and `DynamicImage::save`
(encode-to-path), each may fail with an `image::ImageError`. -/
structure Codec (Img : Type) where
  openImage : String → Except ImageError Img
  save : Img → String → Except ImageError Unit

/-- One observable invocation of the codec library by `run`. -/
inductive Action where
  | decode (path : String)
  | encode (path : String)
deriving DecidableEq

/-- The success message printed by `run` (main.rs:98-101). -/
def successMsg (i o : Extension) : String :=
  "Image successfully converted from " ++ i.display ++ " to " ++ o.display

/-- `run` (main.rs:88-103) with the `?` operator made explicit: resolve the
input extension, resolve the output extension, decode, encode, then report.
`image::ImageError` failures are wrapped by `From` into `Error::Image`.
Alongside the result, the trace of codec invocations actually performed is
returned, in order. -/
def run {Img : Type} (codec : Codec Img) (input output : String) :
    Except Error String × List Action :=
  match Extension.fromStr input with
  | .error e => (.error e, [])
  | .ok input_ext =>
    match Extension.fromStr output with
    | .error e => (.error e, [])
    | .ok output_ext =>
      match codec.openImage input with
      | .error e => (.error (.Image e), [.decode input])
      | .ok img =>
        match codec.save img output with
        | .error e => (.error (.Image e), [.decode input, .encode output])
        | .ok _ =>
            (.ok (successMsg input_ext output_ext), [.decode input, .encode output])

/-- The observable outcome of one process invocation: exit code, standard
output and standard error. -/
structure ProcOutput where
  exitCode : Nat
  stdOut : String
  stdErr : String
deriving DecidableEq

/-- `main` (main.rs:82-87): on an error from `run`, print it to standard
error wrapped in the red escape sequence and exit 1; otherwise `run` printed
its success line to standard output and the process exits 0. -/
def mainRun {Img : Type} (codec : Codec Img) (input output : String) : ProcOutput :=
  match (run codec input output).1 with
  | .ok msg => ⟨0, msg ++ "\n", ""⟩
  | .error err => ⟨1, "", "\x1b[31m" ++ err.display ++ "\x1b[0m" ++ "\n"⟩

/-- A codec whose decode and encode both succeed. -/
def okCodec : Codec Unit where
  openImage := fun _ => .ok ()
  save := fun _ _ => .ok ()

/-- A codec whose decode fails with the message "boom". -/
def failDecodeCodec : Codec Unit where
  openImage := fun _ => .error "boom"
  save := fun _ _ => .ok ()

/-- A codec whose decode succeeds and whose encode fails with "boom". -/
def failEncodeCodec : Codec Unit where
  openImage := fun _ => .ok ()
  save := fun _ _ => .error "boom"

/-! ## Lemmas about the splitter -/

theorem splitDotAux_ne_nil (l acc : List Char) : splitDotAux l acc ≠ [] := by
  induction l generalizing acc with
  | nil => simp [splitDotAux]
  | cons c cs ih =>
      by_cases h : c = '.'
      · simp [splitDotAux, h]
      · simpa [splitDotAux, h] using ih (c :: acc)

theorem splitDot_ne_nil (s : List Char) : splitDot s ≠ [] :=
  splitDotAux_ne_nil s []

theorem splitDotAux_no_dot (l acc : List Char) (h : '.' ∉ l) :
    splitDotAux l acc = [acc.reverse ++ l] := by
  induction l generalizing acc with
  | nil => simp [splitDotAux]
  | cons c cs ih =>
      have hc : c ≠ '.' := fun hc => h (by simp [hc])
      have hcs : '.' ∉ cs := fun hm => h (List.mem_cons_of_mem _ hm)
      simp [splitDotAux, hc, ih (c :: acc) hcs]

theorem splitDot_no_dot (l : List Char) (h : '.' ∉ l) : splitDot l = [l] := by
  simpa using splitDotAux_no_dot l [] h

theorem splitDotAux_append_dot (xs ys acc : List Char) :
    ∃ pre, splitDotAux (xs ++ '.' :: ys) acc = pre ++ splitDot ys := by
  induction xs generalizing acc with
  | nil => exact ⟨[acc.reverse], by simp [splitDotAux, splitDot]⟩
  | cons c cs ih =>
      by_cases h : c = '.'
      · obtain ⟨pre, hpre⟩ := ih []
        exact ⟨acc.reverse :: pre, by simp [splitDotAux, h, hpre]⟩
      · obtain ⟨pre, hpre⟩ := ih (c :: acc)
        exact ⟨pre, by simp [splitDotAux, h, hpre]⟩

theorem getLast?_splitDot_append (xs ys : List Char) :
    (splitDot (xs ++ '.' :: ys)).getLast? = (splitDot ys).getLast? := by
  obtain ⟨pre, hpre⟩ := splitDotAux_append_dot xs ys []
  rw [splitDot, hpre, List.getLast?_append]
  cases hy : (splitDot ys).getLast? with
  | some l => simp
  | none =>
      exact absurd (List.getLast?_eq_none_iff.mp hy) (splitDot_ne_nil ys)

theorem getLast?_splitDot_isSome (s : List Char) :
    ∃ ext, (splitDot s).getLast? = some ext := by
  cases hy : (splitDot s).getLast? with
  | some l => exact ⟨l, rfl⟩
  | none => exact absurd (List.getLast?_eq_none_iff.mp hy) (splitDot_ne_nil s)

/-! ## Lemmas about the resolver -/

theorem fromStr_eq_ofToken (s : String) (ext : List Char)
    (h : (splitDot s.data).getLast? = some ext) :
    Extension.fromStr s = Extension.ofToken (String.mk ext) := by
  simp [Extension.fromStr, h]

theorem ofToken_unsupported (e : String) (h1 : e ≠ "png") (h2 : e ≠ "jpg")
    (h3 : e ≠ "jpeg") (h4 : e ≠ "webp") :
    Extension.ofToken e = .error (.Extension (unsupportedMsg e)) := by
  simp [Extension.ofToken, h1, h2, h3, h4]

theorem ofToken_cases (e : String) :
    (∃ x, Extension.ofToken e = .ok x) ∨
      Extension.ofToken e = .error (.Extension (unsupportedMsg e)) := by
  unfold Extension.ofToken
  split_ifs <;> simp

theorem unsupportedMsg_ne_noExtensionMsg (t u : String) :
    unsupportedMsg t ≠ noExtensionMsg u := by
  intro h
  have hd := congrArg String.data h
  simp only [unsupportedMsg, noExtensionMsg, String.data_append, List.append_assoc] at hd
  have hl : ∀ r : List Char, ("The extension ".data ++ r)[4]? = some 'e' := by
    intro r
    rw [List.getElem?_append, if_pos (by decide : (4 : Nat) < "The extension ".data.length)]
    decide
  have hr : ∀ r : List Char, ("The file ".data ++ r)[4]? = some 'f' := by
    intro r
    rw [List.getElem?_append, if_pos (by decide : (4 : Nat) < "The file ".data.length)]
    decide
  have h4 : ("The extension ".data ++ (t.data ++ " is not supported".data))[4]? =
      ("The file ".data ++ (u.data ++ " has no extension, please specify one".data))[4]? := by
    rw [hd]
  rw [hl, hr] at h4
  exact absurd h4 (by decide)

/-! ## Claims -/

/-- C1 counterexample: the claim says `resolve("")` and `resolve("file")` fail
with the NoExtension error, but both fail with the UnsupportedExtension
message (the candidate extension being the whole string), never with the
NoExtension message. -/
theorem c1_counterexample :
    Extension.fromStr "" = .error (.Extension (unsupportedMsg "")) ∧
    Extension.fromStr "" ≠ .error (.Extension (noExtensionMsg "")) ∧
    Extension.fromStr "file" = .error (.Extension (unsupportedMsg "file")) ∧
    Extension.fromStr "file" ≠ .error (.Extension (noExtensionMsg "file")) := by
  refine ⟨rfl, ?_, rfl, ?_⟩ <;> decide

/-- C1 amended: for every string S with no dot that is not itself one of the
four supported tokens, resolution fails with UnsupportedExtension carrying S
itself as the offending token, not with NoExtension. -/
theorem c1_dotfree_unsupported (s : String) (hdot : '.' ∉ s.data)
    (h1 : s ≠ "png") (h2 : s ≠ "jpg") (h3 : s ≠ "jpeg") (h4 : s ≠ "webp") :
    Extension.fromStr s = .error (.Extension (unsupportedMsg s)) := by
  have hlast : (splitDot s.data).getLast? = some s.data := by
    rw [splitDot_no_dot s.data hdot]
    rfl
  rw [fromStr_eq_ofToken s s.data hlast]
  exact ofToken_unsupported s h1 h2 h3 h4

/-- C1 witness: the amended statement at the concrete dot-free input "txt". -/
theorem c1_witness :
    Extension.fromStr "txt" = .error (.Extension (unsupportedMsg "txt")) :=
  c1_dotfree_unsupported "txt" (by decide) (by decide) (by decide) (by decide)
    (by decide)

/-- C2: whenever the last dot-delimited segment of a path is one of the
literal tokens png, jpg, jpeg, webp, resolution succeeds; jpg and jpeg both
resolve to the JPEG tag, png to PNG, webp to WEBP; in particular at the
spec's inputs "x.png", "x.jpg", "x.jpeg", "x.webp". -/
theorem c2_supported_tokens (s : String) :
    ((splitDot s.data).getLast? = some "png".data → Extension.fromStr s = .ok .Png) ∧
    ((splitDot s.data).getLast? = some "jpg".data → Extension.fromStr s = .ok .Jpeg) ∧
    ((splitDot s.data).getLast? = some "jpeg".data → Extension.fromStr s = .ok .Jpeg) ∧
    ((splitDot s.data).getLast? = some "webp".data → Extension.fromStr s = .ok .Webp) ∧
    Extension.fromStr "x.png" = .ok .Png ∧
    Extension.fromStr "x.jpg" = .ok .Jpeg ∧
    Extension.fromStr "x.jpeg" = .ok .Jpeg ∧
    Extension.fromStr "x.webp" = .ok .Webp := by
  refine ⟨?_, ?_, ?_, ?_, rfl, rfl, rfl, rfl⟩ <;>
    · intro h
      rw [fromStr_eq_ofToken _ _ h]
      rfl

/-- C3: only the last dot-delimited segment determines the result of
resolution: "file.some.jpg" resolves to JPEG, and for every prefix p and
every dot-free token t, resolving p ++ "." ++ t agrees with resolving
"x." ++ t. -/
theorem c3_last_segment_only (p t : String) :
    Extension.fromStr "file.some.jpg" = .ok .Jpeg ∧
    ('.' ∉ t.data →
      Extension.fromStr (p ++ "." ++ t) = Extension.fromStr ("x." ++ t)) := by
  refine ⟨rfl, fun hdot => ?_⟩
  have hlt : (splitDot t.data).getLast? = some t.data := by
    rw [splitDot_no_dot t.data hdot]
    rfl
  have h1 : (p ++ "." ++ t).data = p.data ++ '.' :: t.data := by
    simp [String.data_append]
  have h2 : ("x." ++ t).data = ['x'] ++ '.' :: t.data := by
    simp [String.data_append]
  have ha : (splitDot (p ++ "." ++ t).data).getLast? = some t.data := by
    rw [h1, getLast?_splitDot_append, hlt]
  have hb : (splitDot ("x." ++ t).data).getLast? = some t.data := by
    rw [h2, getLast?_splitDot_append, hlt]
  rw [fromStr_eq_ofToken _ _ ha, fromStr_eq_ofToken _ _ hb]

/-- C4: for a path containing a dot whose last dot-delimited segment is not
one of the four supported tokens (this includes the empty segment of a
trailing dot and uppercase variants such as PNG, since no case normalization
is performed), resolution fails with UnsupportedExtension carrying that
segment. -/
theorem c4_unsupported_segment (s : String) (ext : List Char)
    (hdot : '.' ∈ s.data)
    (hlast : (splitDot s.data).getLast? = some ext)
    (h1 : String.mk ext ≠ "png") (h2 : String.mk ext ≠ "jpg")
    (h3 : String.mk ext ≠ "jpeg") (h4 : String.mk ext ≠ "webp") :
    Extension.fromStr s = .error (.Extension (unsupportedMsg (String.mk ext))) := by
  rw [fromStr_eq_ofToken s ext hlast]
  exact ofToken_unsupported _ h1 h2 h3 h4

/-- C4 witness: the statement at the concrete input "file.bmp". -/
theorem c4_witness :
    Extension.fromStr "file.bmp" =
      .error (.Extension (unsupportedMsg (String.mk "bmp".data))) :=
  c4_unsupported_segment "file.bmp" "bmp".data (by decide) (by decide)
    (by decide) (by decide) (by decide) (by decide)

/-- C5: both extensions are resolved before any codec invocation: if the
input path's resolution fails, or the input's succeeds and the output's
fails, `run` returns the resolver's error unchanged with an empty codec
trace (no decode and no encode is performed); in particular with a
fully-working codec and input "a.txt" nothing is decoded or written. -/
theorem c5_resolution_before
    {Img : Type} (codec : Codec Img) (i o : String) (e : Error) :
    (Extension.fromStr i = .error e → run codec i o = (.error e, [])) ∧
    (∀ ei, Extension.fromStr i = .ok ei → Extension.fromStr o = .error e →
      run codec i o = (.error e, [])) ∧
    run okCodec "a.txt" "b.png" = (.error (.Extension (unsupportedMsg "txt")), []) := by
  refine ⟨fun h => ?_, fun ei hi ho => ?_, rfl⟩
  · simp [run, h]
  · simp [run, hi, ho]

/-- C6 counterexample: a decode failure and an encode failure with the same
underlying codec error yield exactly the same error value from `run` (both
are the Image variant), even though the two runs fail at different stages
(their codec traces differ) — so the returned error does not distinguish
whether the failure originated in decoding or in encoding. -/
theorem c6_counterexample :
    (run failDecodeCodec "a.png" "b.png").1 = .error (.Image "boom") ∧
    (run failEncodeCodec "a.png" "b.png").1 = .error (.Image "boom") ∧
    (run failDecodeCodec "a.png" "b.png").1 = (run failEncodeCodec "a.png" "b.png").1 ∧
    (run failDecodeCodec "a.png" "b.png").2 ≠ (run failEncodeCodec "a.png" "b.png").2 := by
  refine ⟨rfl, rfl, rfl, ?_⟩
  decide

/-- C6 amended: a failure of the external decode step and a failure of the
external encode step are both returned as the same Image variant of the
unified error, carrying the underlying codec error; the variant separates
codec failures from extension and IO failures but not decoding from
encoding. -/
theorem c6_image_wraps_both {Img : Type} (codec : Codec Img) (i o : String)
    (ei eo : Extension) (e : ImageError)
    (hi : Extension.fromStr i = .ok ei) (ho : Extension.fromStr o = .ok eo) :
    (codec.openImage i = .error e → (run codec i o).1 = .error (.Image e)) ∧
    (∀ img, codec.openImage i = .ok img → codec.save img o = .error e →
      (run codec i o).1 = .error (.Image e)) := by
  refine ⟨fun hd => ?_, fun img hd hs => ?_⟩
  · simp [run, hi, ho, hd]
  · simp [run, hi, ho, hd, hs]

/-- C6 witness: the amended statement at a concrete codec whose decode fails
with "boom". -/
theorem c6_witness :
    (failDecodeCodec.openImage "a.png" = .error "boom" →
      (run failDecodeCodec "a.png" "b.jpg").1 = .error (.Image "boom")) ∧
    (∀ img, failDecodeCodec.openImage "a.png" = .ok img →
      failDecodeCodec.save img "b.jpg" = .error "boom" →
      (run failDecodeCodec "a.png" "b.jpg").1 = .error (.Image "boom")) :=
  c6_image_wraps_both failDecodeCodec "a.png" "b.jpg" .Png .Jpeg "boom" rfl rfl

/-- C7: when both resolutions, the decode and the encode succeed, the process
prints "Image successfully converted from I to O" (I, O the canonical
lowercase renderings of the resolved tags) on standard output and exits 0;
on any failure of `run` it exits 1 with the error rendered in the red escape
wrapper on standard error; in particular converting "in.png" to "out.jpg"
with a working codec prints "from png to jpeg" and exits 0. -/
theorem c7_report_and_exit {Img : Type} (codec : Codec Img) (i o : String) :
    (∀ ei eo img, Extension.fromStr i = .ok ei → Extension.fromStr o = .ok eo →
      codec.openImage i = .ok img → codec.save img o = .ok () →
      mainRun codec i o =
        ⟨0, "Image successfully converted from " ++ ei.display ++ " to " ++
          eo.display ++ "\n", ""⟩) ∧
    (∀ e, (run codec i o).1 = .error e →
      mainRun codec i o = ⟨1, "", "\x1b[31m" ++ e.display ++ "\x1b[0m" ++ "\n"⟩) ∧
    mainRun okCodec "in.png" "out.jpg" =
      ⟨0, "Image successfully converted from png to jpeg" ++ "\n", ""⟩ := by
  refine ⟨fun ei eo img hi ho hd hs => ?_, fun e he => ?_, rfl⟩
  · simp [mainRun, run, hi, ho, hd, hs, successMsg]
  · simp [mainRun, he]

/-- C8: every format tag renders as exactly one of "png", "jpeg", "webp";
the JPEG tag renders as "jpeg" and no tag ever renders as "jpg". -/
theorem c8_display_canonical :
    (∀ e : Extension, e.display = "png" ∨ e.display = "jpeg" ∨ e.display = "webp") ∧
    Extension.Jpeg.display = "jpeg" ∧
    (∀ e : Extension, e.display ≠ "jpg") := by
  refine ⟨fun e => ?_, rfl, fun e => ?_⟩ <;> cases e <;> simp [Extension.display]

/-- C9: the NoExtension branch of the resolver is unreachable: splitting any
string on dots yields at least one segment, the last segment always exists,
the resolver never returns the no-extension error for any path text, and
every resolution failure is the unsupported-extension error for the last
segment. -/
theorem c9_noExtension_unreachable (s : String) :
    splitDot s.data ≠ [] ∧
    (∃ ext, (splitDot s.data).getLast? = some ext) ∧
    (∀ t : String, Extension.fromStr s ≠ .error (.Extension (noExtensionMsg t))) ∧
    ((∃ x, Extension.fromStr s = .ok x) ∨
      ∃ ext, (splitDot s.data).getLast? = some ext ∧
        Extension.fromStr s = .error (.Extension (unsupportedMsg (String.mk ext)))) := by
  obtain ⟨ext, hext⟩ := getLast?_splitDot_isSome s.data
  have hfrom := fromStr_eq_ofToken s ext hext
  refine ⟨splitDot_ne_nil s.data, ⟨ext, hext⟩, ?_, ?_⟩
  · intro t h
    rw [hfrom] at h
    rcases ofToken_cases (String.mk ext) with ⟨x, hx⟩ | herr
    · rw [hx] at h
      exact Except.noConfusion h
    · rw [herr] at h
      have hmsg : unsupportedMsg (String.mk ext) = noExtensionMsg t := by
        injection h with h'
        injection h'
      exact unsupportedMsg_ne_noExtensionMsg _ _ hmsg
  · rcases ofToken_cases (String.mk ext) with ⟨x, hx⟩ | herr
    · exact Or.inl ⟨x, by rw [hfrom, hx]⟩
    · exact Or.inr ⟨ext, hext, by rw [hfrom, herr]⟩

/-- C10: each bare supported token with no dot at all resolves successfully
to the corresponding tag, because on a dot-free string the whole string is
the candidate extension. -/
theorem c10_bare_tokens :
    Extension.fromStr "png" = .ok .Png ∧
    Extension.fromStr "jpg" = .ok .Jpeg ∧
    Extension.fromStr "jpeg" = .ok .Jpeg ∧
    Extension.fromStr "webp" = .ok .Webp :=
  ⟨rfl, rfl, rfl, rfl⟩

end Imgy
